import Mathlib

/-!
Verification of the MySQL connection pool (ConnectionPool / Connection).

Shallow embedding of the pool's core operations, translated from
`src/sources/CommonConnectionPool.cpp` (ConnectionPool::getConnection,
the shared_ptr deleter, ConnectionPool::produceConnectionTask,
ConnectionPool::scannerConnectionTask, ConnectionPool::loadConfigFile,
ConnectionPool::ConnectionPool) and `src/unnamed/part_002` /
`src/unnamed/part_003` (Connection::connect, Connection::isValid,
Connection::refreshAliveTime, Connection::getAliveeTime).

Conventions of the embedding:
* A `Conn` is one pooled connection: `valid` is what `isValid()`
  (mysql_ping) reports for it, `lastActive` is `_alivetime`; the current
  clock is passed explicitly as `now`, so `getAliveeTime` is
  `now - lastActive` (the code's `clock() - _alivetime`).
* The machine integers `_connectionCnt`, `_initSize`, `_maxSize`,
  `_maxIdleTime` are C `int`s; the pool never gets near 2^31, so they are
  embedded as `Int`.
* Blocking is made explicit: `cv.wait_for` outcomes are a list of
  `WaitEvent`s (a timeout, or a wake exposing the queue/counter another
  thread left behind); a run that would still be blocked is `none`.
* Each operation also records a trace of its potentially slow calls
  (liveness ping, `new Connection()`, `connect`, `delete`), each paired
  with whether the queue mutex `_queueMutex` is held at that moment.
* C++ exceptions are embedded as `Except`: `Connection::connect` throws
  on every failure path, so its embedding returns `Except String Bool`.
-/

namespace Pool

/-- One pooled connection (class `Connection`): `valid` is the answer its
`isValid()` (mysql_ping) gives, `lastActive` its `_alivetime` stamp. -/
structure Conn where
  valid : Bool
  lastActive : Int
deriving DecidableEq, Repr

/-- `Connection::getAliveeTime()`: `clock() - _alivetime`, with the clock
passed explicitly. -/
def getAliveeTime (now : Int) (c : Conn) : Int :=
  now - c.lastActive

/-- The potentially slow operations the spec's locking discipline talks
about: the liveness ping, `new Connection()`, `Connection::connect`, and
`delete` of a connection. -/
inductive Ev where
  | liveCheck
  | factoryNew
  | factoryConnect
  | destroy
deriving DecidableEq, Repr

/-- An outcome of one `cv.wait_for` in `getConnection`: the wait timed
out, or the thread woke up seeing the queue and counter other threads
left behind. -/
inductive WaitEvent where
  | timeout
  | wake (que : List Conn) (cnt : Int)
deriving DecidableEq, Repr

/-- Result of the validity-scan loop of `ConnectionPool::getConnection`
(the `while (!_connectionQue.empty())` loop): the lease handed out (if
any), the remaining queue, the counter, how many popped connections
failed the liveness check, and the trace of slow calls with the
lock-held flag. -/
structure ScanOut where
  lease : Option Conn
  que : List Conn
  cnt : Int
  failedPops : Nat
  trace : List (Ev × Bool)
deriving DecidableEq, Repr

/-- The validity-scan loop of `ConnectionPool::getConnection`: pop the
front; if `isValid()` holds, refresh `_alivetime` and hand the
connection out; otherwise `_connectionCnt--`, `delete`, and continue.
The mutex is held throughout, so every slow call is traced with `true`. -/
def borrowScan (now : Int) : List Conn → Int → ScanOut
  | [], cnt => ⟨none, [], cnt, 0, []⟩
  | c :: rest, cnt =>
    if c.valid then
      ⟨some { c with lastActive := now }, rest, cnt, 0, [(Ev.liveCheck, true)]⟩
    else
      let r := borrowScan now rest (cnt - 1)
      ⟨r.lease, r.que, r.cnt, r.failedPops + 1,
        (Ev.liveCheck, true) :: (Ev.destroy, true) :: r.trace⟩

/-- Result of one full `ConnectionPool::getConnection` call: on top of
the scan's fields, how many `cv.wait_for` calls completed before the
function returned. -/
structure BorrowOut where
  lease : Option Conn
  que : List Conn
  cnt : Int
  waitsUsed : Nat
  failedPops : Nat
  trace : List (Ev × Bool)
deriving DecidableEq, Repr

/-- The wait loop of `ConnectionPool::getConnection`
(`while (_connectionQue.empty()) { if (timeout == cv.wait_for(...)) return nullptr; }`)
followed by the validity scan. `none` means every supplied wait outcome
was consumed with the queue still empty (the call is still blocked). -/
def borrowLoop (now : Int) : List WaitEvent → List Conn → Int → Nat → Option BorrowOut
  | evs, que, cnt, n =>
    match que with
    | c :: rest =>
      let r := borrowScan now (c :: rest) cnt
      some ⟨r.lease, r.que, r.cnt, n, r.failedPops, r.trace⟩
    | [] =>
      match evs with
      | [] => none
      | WaitEvent.timeout :: _ => some ⟨none, [], cnt, n + 1, 0, []⟩
      | WaitEvent.wake q k :: rest => borrowLoop now rest q k (n + 1)

/-- `ConnectionPool::getConnection`, entered with queue `que` and counter
`cnt`; `evs` are the outcomes of its `cv.wait_for` calls in order. -/
def getConnection (now : Int) (que : List Conn) (cnt : Int)
    (evs : List WaitEvent) : Option BorrowOut :=
  borrowLoop now evs que cnt 0

/-- Result of the shared_ptr deleter (the lease-release path) of
`ConnectionPool::getConnection`. -/
structure ReleaseOut where
  que : List Conn
  cnt : Int
  destroyed : Bool
  notified : Bool
  trace : List (Ev × Bool)
deriving DecidableEq, Repr

/-- The custom deleter installed by `ConnectionPool::getConnection`: lock
the mutex; if the released connection still passes `isValid()`, refresh
`_alivetime` and push it to the back of the queue; otherwise
`_connectionCnt--` and `delete` it; either way `cv.notify_all()`. All of
it runs under the mutex. -/
def releaseConnection (now : Int) (p : Conn) (que : List Conn) (cnt : Int) : ReleaseOut :=
  if p.valid then
    ⟨que ++ [{ p with lastActive := now }], cnt, false, true, [(Ev.liveCheck, true)]⟩
  else
    ⟨que, cnt - 1, true, true, [(Ev.liveCheck, true), (Ev.destroy, true)]⟩

/-- `Connection::connect` (src/unnamed/part_002): if `_conn` is non-null
it is closed and re-initialised, throwing when `mysql_init` fails; then
`mysql_real_connect` is attempted, throwing when it returns null (after
closing `_conn`); on success the function returns `true`. The booleans
are the outcomes of the two fallible external calls. -/
def Connection.connect (hasExisting reinitOk realConnectOk : Bool) : Except String Bool :=
  if hasExisting && !reinitOk then
    Except.error "Re-initialization failed after reset"
  else if !realConnectOk then
    Except.error "Connection failed"
  else
    Except.ok true

/-- `true` exactly when `Connection.connect` returns normally with
`false` (the producer's `else { delete p; }` branch would need this). -/
def connectReturnsFalse (hasExisting reinitOk realConnectOk : Bool) : Bool :=
  match Connection.connect hasExisting reinitOk realConnectOk with
  | Except.ok false => true
  | _ => false

/-- Outcomes of the external calls one producer iteration makes:
whether `new Connection()` succeeds (its constructor throws when
`mysql_init` fails), and the two outcomes inside `Connection::connect`. -/
structure ProducerEnv where
  ctorOk : Bool
  reinitOk : Bool
  realConnectOk : Bool
deriving DecidableEq, Repr

/-- Result of one iteration of `ConnectionPool::produceConnectionTask`
after its `cv.wait`: queue and counter afterwards, whether a connection
was pushed, whether the `delete p` cleanup branch ran, whether an
exception escaped the task, whether the loop continues, whether
`cv.notify_all()` ran, and the slow-call trace. -/
structure ProduceOut where
  que : List Conn
  cnt : Int
  pushed : Bool
  deletedP : Bool
  exnEscaped : Bool
  loopContinues : Bool
  notified : Bool
  trace : List (Ev × Bool)
deriving DecidableEq, Repr

/-- One iteration of `ConnectionPool::produceConnectionTask` past its
`cv.wait`: if `_connectionCnt < _maxSize`, run `new Connection()` and
`p->connect(...)` inside a `try`/`catch(...)` — push and increment on
`true`, `delete p` on `false`, swallow any exception; then
`cv.notify_all()`. The mutex is held for the whole body, so every slow
call is traced with `true`. A fresh connection is valid and stamped with
`now` (`p->refreshAliveTime()`). -/
def produceIteration (now maxSize : Int) (env : ProducerEnv)
    (que : List Conn) (cnt : Int) : ProduceOut :=
  if cnt < maxSize then
    if env.ctorOk then
      match Connection.connect true env.reinitOk env.realConnectOk with
      | Except.ok true =>
        ⟨que ++ [⟨true, now⟩], cnt + 1, true, false, false, true, true,
          [(Ev.factoryNew, true), (Ev.factoryConnect, true)]⟩
      | Except.ok false =>
        ⟨que, cnt, false, true, false, true, true,
          [(Ev.factoryNew, true), (Ev.factoryConnect, true), (Ev.destroy, true)]⟩
      | Except.error _ =>
        ⟨que, cnt, false, false, false, true, true,
          [(Ev.factoryNew, true), (Ev.factoryConnect, true)]⟩
    else
      ⟨que, cnt, false, false, false, true, true, [(Ev.factoryNew, true)]⟩
  else
    ⟨que, cnt, false, false, false, true, true, []⟩

/-- Result of one reaper sweep of `ConnectionPool::scannerConnectionTask`. -/
structure SweepOut where
  que : List Conn
  cnt : Int
  trace : List (Ev × Bool)
deriving DecidableEq, Repr

/-- The inner loop of `ConnectionPool::scannerConnectionTask`: while
`_connectionCnt > _initSize`, look at the front connection; if
`getAliveeTime() >= _maxIdleTime * 1000`, pop it, decrement the counter,
unlock, `delete` it, relock, and continue; otherwise stop (the queue is
FIFO, so nothing behind the front is older). The `delete` runs with the
mutex released, hence traced with `false`. (The C++ calls `front()`
before checking emptiness; on an empty queue that is undefined behaviour —
the embedding stops the loop there.) -/
def scannerSweep (now maxIdleTime initSize : Int) : List Conn → Int → SweepOut
  | [], cnt => ⟨[], cnt, []⟩
  | c :: rest, cnt =>
    if initSize < cnt then
      if maxIdleTime * 1000 ≤ getAliveeTime now c then
        let r := scannerSweep now maxIdleTime initSize rest (cnt - 1)
        ⟨r.que, r.cnt, (Ev.destroy, false) :: r.trace⟩
      else ⟨c :: rest, cnt, []⟩
    else ⟨c :: rest, cnt, []⟩

/-- How many connections one `scannerSweep` evicts (the number of times
its inner loop pops). -/
def evictCount (now maxIdleTime initSize : Int) : List Conn → Int → Nat
  | [], _ => 0
  | c :: rest, cnt =>
    if initSize < cnt then
      if maxIdleTime * 1000 ≤ getAliveeTime now c then
        evictCount now maxIdleTime initSize rest (cnt - 1) + 1
      else 0
    else 0

/-- Several reaper cycles in a row (`for (;;) { sleep; sweep }`), each
observing its own clock value. -/
def scannerRuns (maxIdleTime initSize : Int) : List Int → List Conn → Int → List Conn × Int
  | [], que, cnt => (que, cnt)
  | now :: rest, que, cnt =>
    let r := scannerSweep now maxIdleTime initSize que cnt
    scannerRuns maxIdleTime initSize rest r.que r.cnt

/-- The configuration fields `ConnectionPool::loadConfigFile` fills in. -/
structure Config where
  ip : String
  port : Int
  username : String
  password : String
  dbname : String
  initSize : Int
  maxSize : Int
  maxIdleTime : Int
  connTimeout : Int
deriving DecidableEq, Repr

/-- The validation section of `ConnectionPool::loadConfigFile` (its
`hasError` checks after parsing): the required fields must be non-empty
and `0 < _initSize`, `0 < _maxSize`, `_initSize <= _maxSize` must hold;
the function returns `!hasError`. -/
def loadConfigOk (cfg : Config) : Bool :=
  !(cfg.ip.isEmpty || cfg.username.isEmpty || cfg.dbname.isEmpty ||
    cfg.initSize ≤ 0 || cfg.maxSize ≤ 0 || cfg.maxSize < cfg.initSize)

/-- What the `ConnectionPool` constructor leaves behind: the idle queue,
`_connectionCnt`, and whether the producer and scanner threads were
started. The C++ constructor always completes (it never throws on a bad
configuration), so this embedding is total. -/
structure CtorOut where
  que : List Conn
  cnt : Int
  producerStarted : Bool
  scannerStarted : Bool
deriving DecidableEq, Repr

/-- `ConnectionPool::ConnectionPool()`: if `loadConfigFile()` fails, the
constructor returns early — the object exists with an empty queue,
counter 0, and neither background thread started. Otherwise it builds
`_initSize` connections (each stamped with `now`), sets the counter, and
detaches the producer and scanner threads. (The startup `connect` calls
are assumed to succeed; a backend failure there throws out of the
constructor and is outside the claims settled here.) -/
def mkConnectionPool (cfg : Config) (now : Int) : CtorOut :=
  if loadConfigOk cfg then
    ⟨List.replicate cfg.initSize.toNat ⟨true, now⟩, cfg.initSize, true, true⟩
  else
    ⟨[], 0, false, false⟩

/-- State of the pool between operations: the idle queue, the number of
outstanding leases, and `_connectionCnt`. -/
structure PState where
  que : List Conn
  out : Nat
  cnt : Int
deriving DecidableEq, Repr

/-- One lock-protected pool operation: a complete (non-blocking)
`getConnection` call, one lease release, one producer iteration, or one
reaper sweep. -/
inductive Op where
  | borrow (now : Int)
  | release (now : Int) (c : Conn)
  | produce (now : Int) (env : ProducerEnv)
  | reap (now maxIdleTime : Int)
deriving DecidableEq, Repr

/-- Apply one operation to the pool state. A borrow that would block
(empty queue, no wait outcome supplied) leaves the state unchanged; a
release only happens while a lease is outstanding. -/
def applyOp (initSize maxSize : Int) (s : PState) : Op → PState
  | Op.borrow now =>
    match getConnection now s.que s.cnt [] with
    | none => s
    | some r => ⟨r.que, s.out + (if r.lease.isSome then 1 else 0), r.cnt⟩
  | Op.release now c =>
    if s.out = 0 then s
    else
      let r := releaseConnection now c s.que s.cnt
      ⟨r.que, s.out - 1, r.cnt⟩
  | Op.produce now env =>
    let r := produceIteration now maxSize env s.que s.cnt
    ⟨r.que, s.out, r.cnt⟩
  | Op.reap now maxIdleTime =>
    let r := scannerSweep now maxIdleTime initSize s.que s.cnt
    ⟨r.que, s.out, r.cnt⟩

/-- Apply a finite sequence of operations in order. -/
def applyOps (initSize maxSize : Int) : PState → List Op → PState
  | s, [] => s
  | s, op :: rest => applyOps initSize maxSize (applyOp initSize maxSize s op) rest

/-- The counting invariant of the pool: `_connectionCnt` counts exactly
the idle plus the leased connections, and never exceeds `_maxSize`. -/
def poolInv (maxSize : Int) (s : PState) : Prop :=
  s.cnt = (s.que.length : Int) + (s.out : Int) ∧ s.cnt ≤ maxSize

/-- The slow-call trace a validity scan leaves behind when it pops `n`
connections that all fail the liveness check. -/
def staleTrace : Nat → List (Ev × Bool)
  | 0 => []
  | n + 1 => (Ev.liveCheck, true) :: (Ev.destroy, true) :: staleTrace n

/-- Accounting of the validity scan: the counter drops by exactly the
number of failed pops, and the queue's length splits into what is left,
the failed pops, and the popped connection handed out (if any). -/
lemma borrowScan_spec (now : Int) (que : List Conn) : ∀ cnt : Int,
    (borrowScan now que cnt).cnt = cnt - ((borrowScan now que cnt).failedPops : Int) ∧
    (que.length : Int) = ((borrowScan now que cnt).que.length : Int) +
      ((borrowScan now que cnt).failedPops : Int) +
      (if (borrowScan now que cnt).lease.isSome then 1 else 0) := by
  induction que with
  | nil => intro cnt; simp [borrowScan]
  | cons c rest ih =>
    intro cnt
    cases hv : c.valid with
    | true => simp [borrowScan, hv]
    | false =>
      obtain ⟨ih1, ih2⟩ := ih (cnt - 1)
      simp only [borrowScan, hv, Bool.false_eq_true, if_false, List.length_cons]
      constructor
      · push_cast
        omega
      · push_cast
        omega

/-- Every slow call of the validity scan runs with the mutex held. -/
lemma borrowScan_trace (now : Int) (que : List Conn) : ∀ cnt : Int,
    ((borrowScan now que cnt).trace.all fun e => e.2) = true := by
  induction que with
  | nil => intro cnt; simp [borrowScan]
  | cons c rest ih =>
    intro cnt
    cases hv : c.valid with
    | true => simp [borrowScan, hv]
    | false => simp [borrowScan, hv, ih (cnt - 1)]

/-- A validity scan over a queue of connections that all fail the
liveness check empties the queue, decrements the counter once per
connection, and hands out nothing. -/
lemma borrowScan_allInvalid (now : Int) (que : List Conn) : ∀ cnt : Int,
    (que.all fun x => !x.valid) = true →
    borrowScan now que cnt =
      ⟨none, [], cnt - (que.length : Int), que.length, staleTrace que.length⟩ := by
  induction que with
  | nil => intro cnt _; simp [borrowScan, staleTrace]
  | cons c rest ih =>
    intro cnt h
    simp only [List.all_cons, Bool.and_eq_true, Bool.not_eq_true'] at h
    obtain ⟨hc, hrest⟩ := h
    rw [borrowScan, if_neg (by simp [hc]), ih (cnt - 1) hrest]
    simp only [List.length_cons, staleTrace]
    congr 1
    push_cast
    ring

/-- Claim C2 — counterexample. With one idle connection that fails the
liveness check, `getConnection` pops it (one failed pop), never blocks
on the condition variable (`waitsUsed = 0`), and returns a null lease to
the caller. The claim says each failed pop attempt either finds a live
Handle or re-blocks on the condition signal before borrow returns; this
run has a failed pop, no live Handle, and no re-block — the function
gives up instead of looping back to re-wait. -/
theorem claim_C2_counterexample :
    getConnection 0 [⟨false, 0⟩] 1 [] =
      some ⟨none, [], 0, 0, 1, [(Ev.liveCheck, true), (Ev.destroy, true)]⟩ := by
  rfl

/-- Claim C2 — amended. If every Handle in the (non-empty) Idle Queue
fails the liveness check, `getConnection` pops them all, decrements
`liveCount` once per pop, and returns a null lease immediately — with no
further wait on the condition signal — rather than looping back to
re-wait. -/
theorem claim_C2_amended (now : Int) (c : Conn) (rest : List Conn) (cnt : Int)
    (h : ((c :: rest).all fun x => !x.valid) = true) :
    getConnection now (c :: rest) cnt [] =
      some ⟨none, [], cnt - ((c :: rest).length : Int), 0, (c :: rest).length,
        staleTrace (c :: rest).length⟩ := by
  rw [getConnection, borrowLoop, borrowScan_allInvalid now (c :: rest) cnt h]

/-- Claim C2 — witness for the amended theorem, at a queue of two dead
connections. -/
theorem claim_C2_witness :
    (([⟨false, 3⟩, ⟨false, 5⟩] : List Conn).all fun x => !x.valid) = true ∧
    getConnection 9 [⟨false, 3⟩, ⟨false, 5⟩] 4 [] =
      some ⟨none, [], 2, 0, 2, staleTrace 2⟩ :=
  ⟨by decide, claim_C2_amended 9 ⟨false, 3⟩ [⟨false, 5⟩] 4 (by decide)⟩

/-- Claim C3: when the wait for a non-empty queue times out,
`getConnection` returns a null lease (the embedding returns a value —
the source logs and `return nullptr`, raising no exception) and the pool
state at that wait — empty queue, counter `cnt` — is returned exactly as
it was; no connection is popped and nothing is destroyed (`trace = []`).
Stated for the wait begun after any number `n` of earlier wake-ups
(`borrowLoop`), and for the initial wait (`getConnection`). -/
theorem claim_C3 (now cnt : Int) (evs : List WaitEvent) (n : Nat) :
    borrowLoop now (WaitEvent.timeout :: evs) [] cnt n =
      some ⟨none, [], cnt, n + 1, 0, []⟩ ∧
    getConnection now [] cnt (WaitEvent.timeout :: evs) =
      some ⟨none, [], cnt, 1, 0, []⟩ := by
  constructor <;> rfl

/-- Claim C4: on lease release, a connection that passes the liveness
check is re-stamped (`lastActive := now`) and pushed to the back of the
queue with `liveCount` untouched; one that fails is destroyed with
`liveCount` decremented by exactly one; both branches notify all
waiters; and the two outcomes are exclusive and exhaustive — the
connection is requeued (queue grows by one) exactly when it is not
destroyed. -/
theorem claim_C4 (now : Int) (p : Conn) (que : List Conn) (cnt : Int) :
    ((p.valid = true →
        (releaseConnection now p que cnt).que = que ++ [{ p with lastActive := now }] ∧
        (releaseConnection now p que cnt).cnt = cnt ∧
        (releaseConnection now p que cnt).destroyed = false) ∧
      (p.valid = false →
        (releaseConnection now p que cnt).que = que ∧
        (releaseConnection now p que cnt).cnt = cnt - 1 ∧
        (releaseConnection now p que cnt).destroyed = true)) ∧
    (releaseConnection now p que cnt).notified = true ∧
    ((releaseConnection now p que cnt).destroyed = false ↔
      (releaseConnection now p que cnt).que.length = que.length + 1) := by
  cases hv : p.valid with
  | true => simp [releaseConnection, hv]
  | false => simp [releaseConnection, hv]

/-- One reaper sweep drops exactly `evictCount` connections from the
front of the queue, decrements the counter once per eviction, and
performs each destruction with the mutex released. -/
lemma scannerSweep_eq (now maxIdle initS : Int) (que : List Conn) : ∀ cnt : Int,
    scannerSweep now maxIdle initS que cnt =
      ⟨que.drop (evictCount now maxIdle initS que cnt),
        cnt - (evictCount now maxIdle initS que cnt : Int),
        List.replicate (evictCount now maxIdle initS que cnt) (Ev.destroy, false)⟩ := by
  induction que with
  | nil => intro cnt; simp [scannerSweep, evictCount]
  | cons c rest ih =>
    intro cnt
    by_cases h1 : initS < cnt
    · by_cases h2 : maxIdle * 1000 ≤ getAliveeTime now c
      · rw [scannerSweep, if_pos h1, if_pos h2, ih (cnt - 1)]
        rw [evictCount, if_pos h1, if_pos h2]
        simp only [List.drop_succ_cons, List.replicate_succ]
        congr 1
        push_cast
        ring
      · rw [scannerSweep, if_pos h1, if_neg h2, evictCount, if_pos h1, if_neg h2]
        simp
    · rw [scannerSweep, if_neg h1, evictCount, if_neg h1]
      simp

/-- The reaper never evicts more connections than the queue holds. -/
lemma evictCount_le_length (now maxIdle initS : Int) (que : List Conn) : ∀ cnt : Int,
    evictCount now maxIdle initS que cnt ≤ que.length := by
  induction que with
  | nil => intro cnt; simp [evictCount]
  | cons c rest ih =>
    intro cnt
    rw [evictCount]
    split
    · split
      · simpa using Nat.succ_le_succ (ih (cnt - 1))
      · simp
    · simp

/-- Every connection the reaper evicts had been idle for at least the
threshold. -/
lemma evictCount_stale (now maxIdle initS : Int) (que : List Conn) : ∀ cnt : Int,
    ∀ c ∈ que.take (evictCount now maxIdle initS que cnt),
      maxIdle * 1000 ≤ getAliveeTime now c := by
  induction que with
  | nil => intro cnt; simp [evictCount]
  | cons c rest ih =>
    intro cnt
    rw [evictCount]
    by_cases h1 : initS < cnt
    · by_cases h2 : maxIdle * 1000 ≤ getAliveeTime now c
      · rw [if_pos h1, if_pos h2]
        intro x hx
        rw [List.take_succ_cons] at hx
        rcases List.mem_cons.mp hx with h | h
        · exact h ▸ h2
        · exact ih (cnt - 1) x h
      · rw [if_pos h1, if_neg h2]
        simp
    · rw [if_neg h1]
      simp

/-- Evictions only happen while the counter is above the floor: if the
reaper evicted at all, the counter stayed above `initSize` at every
eviction, so `initSize + evictCount ≤ cnt`. -/
lemma evictCount_budget (now maxIdle initS : Int) (que : List Conn) : ∀ cnt : Int,
    evictCount now maxIdle initS que cnt = 0 ∨
      initS + (evictCount now maxIdle initS que cnt : Int) ≤ cnt := by
  induction que with
  | nil => intro cnt; simp [evictCount]
  | cons c rest ih =>
    intro cnt
    rw [evictCount]
    by_cases h1 : initS < cnt
    · by_cases h2 : maxIdle * 1000 ≤ getAliveeTime now c
      · rw [if_pos h1, if_pos h2]
        rcases ih (cnt - 1) with h | h
        · right; rw [h]; push_cast; omega
        · right; push_cast; omega
      · rw [if_pos h1, if_neg h2]; left; rfl
    · rw [if_neg h1]; left; rfl

/-- Why the sweep stopped: if a connection is still at the front
afterwards and the counter is still above the floor, that front
connection is not yet stale. -/
lemma evictCount_stop (now maxIdle initS : Int) (que : List Conn) : ∀ cnt : Int,
    ∀ c, (que.drop (evictCount now maxIdle initS que cnt)).head? = some c →
      initS < cnt - (evictCount now maxIdle initS que cnt : Int) →
      getAliveeTime now c < maxIdle * 1000 := by
  induction que with
  | nil => intro cnt c hc; simp [evictCount] at hc
  | cons c0 rest ih =>
    intro cnt c hc hlt
    rw [evictCount] at hc hlt
    by_cases h1 : initS < cnt
    · by_cases h2 : maxIdle * 1000 ≤ getAliveeTime now c0
      · rw [if_pos h1, if_pos h2] at hc hlt
        rw [List.drop_succ_cons] at hc
        refine ih (cnt - 1) c hc ?_
        push_cast at hlt ⊢
        omega
      · rw [if_pos h1, if_neg h2] at hc
        simp only [List.drop_zero, List.head?_cons, Option.some.injEq] at hc
        exact hc ▸ lt_of_not_le h2
    · rw [if_neg h1] at hlt
      simp at hlt
      omega

/-- The counter never drops below the floor in one sweep. -/
lemma scannerSweep_floor (now maxIdle initS : Int) (que : List Conn) : ∀ cnt : Int,
    initS ≤ cnt → initS ≤ (scannerSweep now maxIdle initS que cnt).cnt := by
  induction que with
  | nil => intro cnt h; simpa [scannerSweep] using h
  | cons c rest ih =>
    intro cnt h
    rw [scannerSweep]
    by_cases h1 : initS < cnt
    · by_cases h2 : maxIdle * 1000 ≤ getAliveeTime now c
      · rw [if_pos h1, if_pos h2]
        exact ih (cnt - 1) (by omega)
      · rw [if_pos h1, if_neg h2]; exact h
    · rw [if_neg h1]; exact h

/-- Claim C5: the Reaper never reduces `liveCount` below `initSize`.
Across any number of reaper cycles, if `initSize ≤ liveCount` held
before, it holds after; and from a state exactly at the floor
(`liveCount = initSize`) a sweep evicts nothing at all, however stale
the idle connections are. -/
theorem claim_C5 (maxIdle initS : Int) (nows : List Int) (que : List Conn)
    (cnt : Int) (now : Int) (que2 : List Conn) (h : initS ≤ cnt) :
    initS ≤ (scannerRuns maxIdle initS nows que cnt).2 ∧
    scannerSweep now maxIdle initS que2 initS = ⟨que2, initS, []⟩ := by
  constructor
  · induction nows generalizing que cnt with
    | nil => simpa [scannerRuns] using h
    | cons t rest ih =>
      rw [scannerRuns]
      exact ih _ _ (scannerSweep_floor t maxIdle initS que cnt h)
  · cases que2 with
    | nil => rfl
    | cons c rest => rw [scannerSweep, if_neg (lt_irrefl initS)]

/-- Claim C5 — witness: a pool of two stale connections with
`initSize = 1` is swept down to the floor and no further, and a sweep
from the floor itself evicts nothing. -/
theorem claim_C5_witness :
    (1 : Int) ≤ 2 ∧
    ((1 : Int) ≤ (scannerRuns 1 1 [5000, 9000] [⟨true, 0⟩, ⟨true, 0⟩] 2).2 ∧
      scannerSweep 5000 1 1 [⟨true, 0⟩] 1 = ⟨[⟨true, 0⟩], 1, []⟩) :=
  ⟨by decide, claim_C5 1 1 [5000, 9000] [⟨true, 0⟩, ⟨true, 0⟩] 2 5000 [⟨true, 0⟩]
    (by decide)⟩

/-- Claim C6: one reaper sweep evicts exactly the connections described
by `evictCount`: it pops `k` connections off the front (`que.drop k`),
decrements the counter once each (`cnt - k`), and destroys each with the
mutex released; every evicted connection was stale
(`getAliveeTime ≥ maxIdleTime * 1000`) and every eviction happened with
the counter above `initSize`; and if a connection remains at the front
with the counter still above the floor, it is fresh — that first fresh
front connection terminated the inner loop, leaving it and everything
behind it in the queue. -/
theorem claim_C6 (now maxIdle initS : Int) (que : List Conn) (cnt : Int) :
    scannerSweep now maxIdle initS que cnt =
      ⟨que.drop (evictCount now maxIdle initS que cnt),
        cnt - (evictCount now maxIdle initS que cnt : Int),
        List.replicate (evictCount now maxIdle initS que cnt) (Ev.destroy, false)⟩ ∧
    evictCount now maxIdle initS que cnt ≤ que.length ∧
    (∀ c ∈ que.take (evictCount now maxIdle initS que cnt),
      maxIdle * 1000 ≤ getAliveeTime now c) ∧
    (evictCount now maxIdle initS que cnt = 0 ∨
      initS + (evictCount now maxIdle initS que cnt : Int) ≤ cnt) ∧
    (∀ c, (que.drop (evictCount now maxIdle initS que cnt)).head? = some c →
      initS < cnt - (evictCount now maxIdle initS que cnt : Int) →
      getAliveeTime now c < maxIdle * 1000) :=
  ⟨scannerSweep_eq now maxIdle initS que cnt,
    evictCount_le_length now maxIdle initS que cnt,
    evictCount_stale now maxIdle initS que cnt,
    evictCount_budget now maxIdle initS que cnt,
    evictCount_stop now maxIdle initS que cnt⟩

/-- Each pool operation preserves the counting invariant. -/
lemma applyOp_poolInv (initS maxS : Int) (s : PState) (op : Op)
    (h : poolInv maxS s) : poolInv maxS (applyOp initS maxS s op) := by
  obtain ⟨h1, h2⟩ := h
  cases op with
  | borrow now =>
    cases hq : s.que with
    | nil =>
      have happ : applyOp initS maxS s (Op.borrow now) = s := by
        rw [applyOp, getConnection, hq]
        rfl
      rw [happ]
      exact ⟨h1, h2⟩
    | cons c rest =>
      have happ : applyOp initS maxS s (Op.borrow now) =
          ⟨(borrowScan now (c :: rest) s.cnt).que,
            s.out + (if (borrowScan now (c :: rest) s.cnt).lease.isSome then 1 else 0),
            (borrowScan now (c :: rest) s.cnt).cnt⟩ := by
        rw [applyOp, getConnection, hq]
        rfl
      obtain ⟨hs1, hs2⟩ := borrowScan_spec now (c :: rest) s.cnt
      rw [hq] at h1
      rw [happ]
      refine ⟨?_, ?_⟩ <;>
        simp only [PState.cnt, PState.que, PState.out] <;>
        cases hl : (borrowScan now (c :: rest) s.cnt).lease.isSome <;>
        rw [hl] at hs2 <;>
        simp only [if_true, if_false, Bool.false_eq_true] at hs2 ⊢ <;>
        push_cast <;>
        omega
  | release now c =>
    by_cases ho : s.out = 0
    · have happ : applyOp initS maxS s (Op.release now c) = s := by
        rw [applyOp, if_pos ho]
      rw [happ]
      exact ⟨h1, h2⟩
    · cases hv : c.valid with
      | true =>
        have happ : applyOp initS maxS s (Op.release now c) =
            ⟨s.que ++ [{ c with lastActive := now }], s.out - 1, s.cnt⟩ := by
          rw [applyOp, if_neg ho]
          simp [releaseConnection, hv]
        rw [happ]
        refine ⟨?_, h2⟩
        simp only [PState.cnt, PState.que, PState.out, List.length_append,
          List.length_cons, List.length_nil]
        push_cast
        omega
      | false =>
        have happ : applyOp initS maxS s (Op.release now c) =
            ⟨s.que, s.out - 1, s.cnt - 1⟩ := by
          rw [applyOp, if_neg ho]
          simp [releaseConnection, hv]
        rw [happ]
        refine ⟨?_, by simp only [PState.cnt]; omega⟩
        simp only [PState.cnt, PState.que, PState.out]
        omega
  | produce now env =>
    by_cases hlt : s.cnt < maxS
    · cases hctor : env.ctorOk with
      | false =>
        have happ : applyOp initS maxS s (Op.produce now env) = ⟨s.que, s.out, s.cnt⟩ := by
          rw [applyOp]
          rw [produceIteration, if_pos hlt, hctor]
          rfl
        rw [happ]
        exact ⟨h1, h2⟩
      | true =>
        cases hre : env.reinitOk with
        | false =>
          have happ : applyOp initS maxS s (Op.produce now env) = ⟨s.que, s.out, s.cnt⟩ := by
            rw [applyOp]
            rw [produceIteration, if_pos hlt, hctor, Connection.connect, hre]
            rfl
          rw [happ]
          exact ⟨h1, h2⟩
        | true =>
          cases hrc : env.realConnectOk with
          | false =>
            have happ : applyOp initS maxS s (Op.produce now env) = ⟨s.que, s.out, s.cnt⟩ := by
              rw [applyOp]
              rw [produceIteration, if_pos hlt, hctor, Connection.connect, hre, hrc]
              rfl
            rw [happ]
            exact ⟨h1, h2⟩
          | true =>
            have happ : applyOp initS maxS s (Op.produce now env) =
                ⟨s.que ++ [⟨true, now⟩], s.out, s.cnt + 1⟩ := by
              rw [applyOp]
              rw [produceIteration, if_pos hlt, hctor, Connection.connect, hre, hrc]
              rfl
            rw [happ]
            refine ⟨?_, by simp only [PState.cnt]; omega⟩
            simp only [PState.cnt, PState.que, PState.out, List.length_append,
              List.length_cons, List.length_nil]
            push_cast
            omega
    · have happ : applyOp initS maxS s (Op.produce now env) = ⟨s.que, s.out, s.cnt⟩ := by
        rw [applyOp]
        rw [produceIteration, if_neg hlt]
      rw [happ]
      exact ⟨h1, h2⟩
  | reap now maxIdle =>
    have hk := evictCount_le_length now maxIdle initS s.que s.cnt
    have happ : applyOp initS maxS s (Op.reap now maxIdle) =
        ⟨s.que.drop (evictCount now maxIdle initS s.que s.cnt), s.out,
          s.cnt - (evictCount now maxIdle initS s.que s.cnt : Int)⟩ := by
      rw [applyOp]
      rw [scannerSweep_eq]
    rw [happ]
    refine ⟨?_, by simp only [PState.cnt]; omega⟩
    simp only [PState.cnt, PState.que, PState.out, List.length_drop]
    push_cast [Nat.cast_sub hk]
    omega

/-- Any finite sequence of pool operations preserves the counting
invariant. -/
lemma applyOps_poolInv (initS maxS : Int) (ops : List Op) : ∀ s : PState,
    poolInv maxS s → poolInv maxS (applyOps initS maxS s ops) := by
  induction ops with
  | nil => intro s h; exact h
  | cons op rest ih =>
    intro s h
    exact ih _ (applyOp_poolInv initS maxS s op h)

/-- Claim C1: from a completed startup with a valid configuration
(`0 < initSize ≤ maxSize`, and the initial queue holding `initSize`
connections with `liveCount = initSize`), every finite sequence of
borrow, lease-release, producer-build and reaper-evict steps keeps
`0 ≤ liveCount ≤ maxSize`; and from a state with
`liveCount = maxSize` a producer iteration creates nothing and enqueues
nothing (no slow call at all: its guard `_connectionCnt < _maxSize`
fails), leaving queue and counter unchanged. -/
theorem claim_C1 (initS maxS : Int) (conns : List Conn) (ops : List Op)
    (now : Int) (env : ProducerEnv) (que : List Conn)
    (_h1 : 0 < initS) (h2 : initS ≤ maxS) (h3 : (conns.length : Int) = initS) :
    (0 ≤ (applyOps initS maxS ⟨conns, 0, initS⟩ ops).cnt ∧
      (applyOps initS maxS ⟨conns, 0, initS⟩ ops).cnt ≤ maxS) ∧
    ((produceIteration now maxS env que maxS).pushed = false ∧
      (produceIteration now maxS env que maxS).que = que ∧
      (produceIteration now maxS env que maxS).cnt = maxS ∧
      (produceIteration now maxS env que maxS).trace = []) := by
  constructor
  · have hstart : poolInv maxS ⟨conns, 0, initS⟩ := by
      constructor
      · simp only [PState.cnt, PState.que, PState.out]
        omega
      · simp only [PState.cnt]
        omega
    obtain ⟨hi1, hi2⟩ := applyOps_poolInv initS maxS ops ⟨conns, 0, initS⟩ hstart
    constructor
    · omega
    · exact hi2
  · rw [produceIteration, if_neg (lt_irrefl maxS)]
    exact ⟨rfl, rfl, rfl, rfl⟩

/-- Claim C1 — witness: a pool with `initSize = 1`, `maxSize = 2` run
through a borrow, a successful build, a release and a reaper sweep. -/
theorem claim_C1_witness :
    ((0 : Int) < 1 ∧ (1 : Int) ≤ 2 ∧ (([⟨true, 0⟩] : List Conn).length : Int) = 1) ∧
    ((0 ≤ (applyOps 1 2 ⟨[⟨true, 0⟩], 0, 1⟩
        [Op.borrow 0, Op.produce 0 ⟨true, true, true⟩, Op.release 3 ⟨true, 0⟩,
          Op.reap 5000 1]).cnt ∧
      (applyOps 1 2 ⟨[⟨true, 0⟩], 0, 1⟩
        [Op.borrow 0, Op.produce 0 ⟨true, true, true⟩, Op.release 3 ⟨true, 0⟩,
          Op.reap 5000 1]).cnt ≤ 2) ∧
    ((produceIteration 7 2 ⟨true, true, true⟩ [⟨true, 0⟩, ⟨true, 0⟩] 2).pushed = false ∧
      (produceIteration 7 2 ⟨true, true, true⟩ [⟨true, 0⟩, ⟨true, 0⟩] 2).que =
        [⟨true, 0⟩, ⟨true, 0⟩] ∧
      (produceIteration 7 2 ⟨true, true, true⟩ [⟨true, 0⟩, ⟨true, 0⟩] 2).cnt = 2 ∧
      (produceIteration 7 2 ⟨true, true, true⟩ [⟨true, 0⟩, ⟨true, 0⟩] 2).trace = [])) :=
  ⟨⟨by decide, by decide, by decide⟩,
    claim_C1 1 2 [⟨true, 0⟩]
      [Op.borrow 0, Op.produce 0 ⟨true, true, true⟩, Op.release 3 ⟨true, 0⟩,
        Op.reap 5000 1]
      7 ⟨true, true, true⟩ [⟨true, 0⟩, ⟨true, 0⟩]
      (by decide) (by decide) (by decide)⟩

/-- Claim C7 — the code at the failing input. A producer iteration with
spare capacity (`cnt = 0 < 2 = maxSize`) whose `mysql_real_connect`
fails: `Connection::connect` throws, the iteration's `catch (...)`
swallows the exception (`exnEscaped = false`), `liveCount` stays 0,
nothing is enqueued, `cv.notify_all()` still runs and the loop
continues — but `deletedP = false`: the `delete p` cleanup branch never
runs, because `connect` threw instead of returning `false`, so the
`Connection` object allocated by `new` is never freed. The claim's
"the failed Handle's resources are discarded" fails here. -/
theorem claim_C7_producer_leak :
    produceIteration 0 2 ⟨true, true, false⟩ [] 0 =
      ⟨[], 0, false, false, false, true, true,
        [(Ev.factoryNew, true), (Ev.factoryConnect, true)]⟩ := by
  rfl

/-- Claim C8 — counterexample. The configuration below is invalid
(`initSize = -1` fails `loadConfigFile`'s validation), yet the
constructor completes normally and hands back a constructed pool object
with an empty queue, `liveCount = 0`, and neither the producer nor the
scanner thread started — exactly the silently degraded pool the claim
says cannot be obtained. The source's constructor body is
`if (!loadConfigFile()) { return; }`: it never throws or aborts on an
invalid configuration. -/
theorem claim_C8_counterexample :
    loadConfigOk ⟨"h", 3306, "u", "p", "d", -1, 4, 60, 100⟩ = false ∧
    mkConnectionPool ⟨"h", 3306, "u", "p", "d", -1, 4, 60, 100⟩ 7 =
      ⟨[], 0, false, false⟩ :=
  ⟨by decide, by decide⟩

/-- Claim C8 — amended. For every invalid configuration (missing
ip/host, username or dbname, non-positive `initSize` or `maxSize`, or
`initSize > maxSize`), `loadConfigFile` reports failure and the
constructor returns early: construction still completes, yielding a
degraded pool object with zero connections, an empty queue, and no
background tasks — it does not fail loudly. -/
theorem claim_C8_amended (cfg : Config) (now : Int)
    (h : loadConfigOk cfg = false) :
    mkConnectionPool cfg now = ⟨[], 0, false, false⟩ := by
  rw [mkConnectionPool, if_neg]
  simp [h]

/-- Claim C8 — witness for the amended theorem, at a configuration whose
`dbname` is missing. -/
theorem claim_C8_witness :
    loadConfigOk ⟨"localhost", 3306, "root", "pw", "", 2, 4, 60, 100⟩ = false ∧
    mkConnectionPool ⟨"localhost", 3306, "root", "pw", "", 2, 4, 60, 100⟩ 0 =
      ⟨[], 0, false, false⟩ :=
  ⟨by decide,
    claim_C8_amended ⟨"localhost", 3306, "root", "pw", "", 2, 4, 60, 100⟩ 0 (by decide)⟩

/-- Claim C9 — counterexample. In a producer iteration with spare
capacity, both `new Connection()` and `Connection::connect` — the
factory construction and its network I/O — run with the queue mutex
held (`true` in the trace): `produceConnectionTask` acquires
`_queueMutex` at the top of its loop body and holds it across the whole
build. The claim says these operations always run with the lock
released. -/
theorem claim_C9_counterexample :
    (produceIteration 0 2 ⟨true, true, true⟩ [] 0).trace =
      [(Ev.factoryNew, true), (Ev.factoryConnect, true)] := by
  rfl

/-- Every slow call any completed `getConnection` run makes happens with
the mutex held. -/
lemma borrowLoop_trace_locked (now : Int) : ∀ (evs : List WaitEvent)
    (que : List Conn) (cnt : Int) (n : Nat),
    ((borrowLoop now evs que cnt n).all fun r => r.trace.all fun e => e.2) = true := by
  intro evs
  induction evs with
  | nil =>
    intro que cnt n
    cases que with
    | nil => rfl
    | cons c rest =>
      rw [borrowLoop]
      simpa using borrowScan_trace now (c :: rest) cnt
  | cons ev rest ih =>
    intro que cnt n
    cases que with
    | cons c tail =>
      rw [borrowLoop]
      simpa using borrowScan_trace now (c :: tail) cnt
    | nil =>
      cases ev with
      | timeout => rfl
      | wake q k => exact ih q k (n + 1)

/-- Every destruction the reaper performs happens with the mutex
released, and destructions are the only slow calls it makes. -/
lemma scannerSweep_trace_unlocked (now maxIdle initS : Int) (que : List Conn) :
    ∀ cnt : Int,
    ((scannerSweep now maxIdle initS que cnt).trace.all fun e =>
      decide (e.1 = Ev.destroy) && !e.2) = true := by
  induction que with
  | nil => intro cnt; rfl
  | cons c rest ih =>
    intro cnt
    rw [scannerSweep]
    by_cases h1 : initS < cnt
    · by_cases h2 : maxIdle * 1000 ≤ getAliveeTime now c
      · rw [if_pos h1, if_pos h2]
        simpa using ih (cnt - 1)
      · rw [if_pos h1, if_neg h2]
        rfl
    · rw [if_neg h1]
      rfl

/-- Claim C9 — amended. The only slow operation the pool performs with
the queue mutex released is the Reaper's `delete`: every liveness check
and destruction in borrow's scan, every liveness check and destruction
in the lease-release deleter, and the producer's `new Connection()` /
`connect` / `delete` all run while the mutex is held; the reaper's
destructions all run with it released. -/
theorem claim_C9_amended :
    (∀ (now : Int) (evs : List WaitEvent) (que : List Conn) (cnt : Int),
      ((getConnection now que cnt evs).all fun r =>
        r.trace.all fun e => e.2) = true) ∧
    (∀ (now : Int) (p : Conn) (que : List Conn) (cnt : Int),
      ((releaseConnection now p que cnt).trace.all fun e => e.2) = true) ∧
    (∀ (now maxS : Int) (env : ProducerEnv) (que : List Conn) (cnt : Int),
      ((produceIteration now maxS env que cnt).trace.all fun e => e.2) = true) ∧
    (∀ (now maxIdle initS : Int) (que : List Conn) (cnt : Int),
      ((scannerSweep now maxIdle initS que cnt).trace.all fun e =>
        decide (e.1 = Ev.destroy) && !e.2) = true) := by
  refine ⟨?_, ?_, ?_, ?_⟩
  · intro now evs que cnt
    exact borrowLoop_trace_locked now evs que cnt 0
  · intro now p que cnt
    cases hv : p.valid <;> simp [releaseConnection, hv]
  · intro now maxS env que cnt
    by_cases hlt : cnt < maxS
    · cases hctor : env.ctorOk
      · rw [produceIteration, if_pos hlt, hctor]
        rfl
      · cases hre : env.reinitOk <;> cases hrc : env.realConnectOk <;>
          rw [produceIteration, if_pos hlt, hctor, Connection.connect, hre] <;>
          first
            | rfl
            | (rw [hrc]; rfl)
    · rw [produceIteration, if_neg hlt]
      rfl
  · intro now maxIdle initS que cnt
    exact scannerSweep_trace_unlocked now maxIdle initS que cnt

/-- Claim C10: `Connection::connect` never returns `false` — every run
either returns `Except.ok true` or throws (`Except.error`), and
`connectReturnsFalse` is constantly `false`; consequently the producer's
`else { delete p; }` cleanup branch is unreachable (`deletedP = false`
on every iteration whatsoever), and an iteration whose
`mysql_real_connect` fails lands in the catch-all handler — nothing
pushed, no exception escaping, the loop continuing — without the newly
allocated `Connection` ever being deleted. -/
theorem claim_C10 (hasExisting reinitOk realConnectOk : Bool)
    (now maxS : Int) (env : ProducerEnv) (que : List Conn) (cnt : Int)
    (rOk : Bool) :
    (Connection.connect hasExisting reinitOk realConnectOk = Except.ok true ∨
      ∃ msg, Connection.connect hasExisting reinitOk realConnectOk = Except.error msg) ∧
    connectReturnsFalse hasExisting reinitOk realConnectOk = false ∧
    (produceIteration now maxS env que cnt).deletedP = false ∧
    ((produceIteration now maxS ⟨true, rOk, false⟩ que cnt).pushed = false ∧
      (produceIteration now maxS ⟨true, rOk, false⟩ que cnt).exnEscaped = false ∧
      (produceIteration now maxS ⟨true, rOk, false⟩ que cnt).deletedP = false ∧
      (produceIteration now maxS ⟨true, rOk, false⟩ que cnt).loopContinues = true) := by
  refine ⟨?_, ?_, ?_, ?_⟩
  · cases hasExisting <;> cases reinitOk <;> cases realConnectOk <;>
      simp [Connection.connect]
  · cases hasExisting <;> cases reinitOk <;> cases realConnectOk <;>
      rfl
  · by_cases hlt : cnt < maxS
    · cases hctor : env.ctorOk
      · rw [produceIteration, if_pos hlt, hctor]
        rfl
      · cases hre : env.reinitOk <;> cases hrc : env.realConnectOk <;>
          rw [produceIteration, if_pos hlt, hctor, Connection.connect, hre] <;>
          first
            | rfl
            | (rw [hrc]; rfl)
    · rw [produceIteration, if_neg hlt]
  · by_cases hlt : cnt < maxS
    · cases hre : rOk <;>
        rw [produceIteration, if_pos hlt] <;>
        exact ⟨rfl, rfl, rfl, rfl⟩
    · rw [produceIteration, if_neg hlt]
      exact ⟨rfl, rfl, rfl, rfl⟩

end Pool
